import Mathlib

/-!
Verification of the buttplug device-control server core against its
specification.  The development shallowly embeds, in Lean, the parts of the
Rust sources that the checked properties are about:

* the LovehoneyDesire protocol command handler
  (src/buttplug/src/device/protocol/lovehoney_desire.rs),
* the generic command manager (modelled from the spec, see below),
* the device manager event loop
  (src/buttplug/src/server/device_manager_event_loop.rs),
* the Lovense HID dongle communication manager's read thread and
  start_scanning entry point
  (src/buttplug/src/server/comm_managers/lovense_dongle/lovense_hid_dongle_comm_manager.rs).

Machine integers are modelled as Nat with explicit `% 256` where the Rust code
casts to u8.  Fallible paths (Rust panics via `.unwrap()`) are modelled with
Option, `none` standing for a panic.  Async side effects (transport writes,
task spawns, broadcasts) are modelled as explicit output lists.
-/

namespace Buttplug

/-! ## LovehoneyDesire protocol handler

Embedding of `LovehoneyDesire::handle_vibrate_cmd` from
src/buttplug/src/device/protocol/lovehoney_desire.rs.  The handler receives
from the generic command manager a vector `cmds : Vec<Option<u32>>` of changed
actuator values; it either emits one combined frame for both motors or one
frame per changed motor.  A transport write of bytes `b` is modelled as the
byte list `b`; the returned list of writes is in issue order (the Rust code
awaits each write in push order).
-/

/-- Embedding of the separate-motor loop of `handle_vibrate_cmd` (`let mut i =
1; for cmd in cmds { if let Some(speed) = cmd { ... vec![0xF3, i, speed as u8]
... } i += 1 }`).  The counter `i` is a u8 in Rust, hence the `% 256` at the
use site. -/
def lovehoney_separate (i : Nat) : List (Option Nat) → List (List Nat)
  | [] => []
  | none :: rest => lovehoney_separate (i + 1) rest
  | some speed :: rest =>
      [0xF3, i % 256, speed % 256] :: lovehoney_separate (i + 1) rest

/-- Embedding of `cmds.windows(2).all(|w| w[0] == w[1])`: adjacent pairs of the
vector are all equal. -/
def all_windows_eq : List (Option Nat) → Bool
  | a :: b :: rest => if a = b then all_windows_eq (b :: rest) else false
  | _ => true

/-- Embedding of the write-emitting body of
`LovehoneyDesire::handle_vibrate_cmd` once the generic command manager has
returned `Ok(Some(cmds))`.  The Rust code indexes `cmds[0]`, so the vector is
never empty there (the generic command manager returns one slot per actuator);
the `[]` case is supplied only to make the function total.  `cmds[0].unwrap()
as u8` is `c0.getD 0 % 256`. -/
def lovehoney_frames : List (Option Nat) → List (List Nat)
  | [] => []
  | c0 :: rest =>
      if c0.isSome && all_windows_eq (c0 :: rest) then
        [[0xF3, 0, c0.getD 0 % 256]]
      else
        lovehoney_separate 1 (c0 :: rest)

/-! ## Generic command manager

The file generic_command_manager.rs is not part of the provided sources (only
its callers are), so the manager is modelled from the spec. -/

/-- One entry of a VibrateCmd: `(index_i, speed_i)` with `speed_i` a normalized
real in [0,1], modelled as a rational. -/
structure VibrateSubcommand where
  index : Nat
  speed : ℚ
deriving DecidableEq

/-- Modelled from the spec: per-device generic command manager state for the
vibrate capability — `step_count[]` precomputed from the capability map and
`current[i]`, the last value successfully written for actuator i (None if
never written).  (generic_command_manager.rs is missing from the sources.) -/
structure GenericCommandManager where
  step_counts : List Nat
  current : List (Option Nat)
deriving DecidableEq

/-- Errors of the generic command manager named in the spec. -/
inductive GCMError where
  | featureNotSupported
  | invalidActuatorIndex
deriving DecidableEq

/-- Modelled from the spec: quantization of a normalized speed, `round(speed ·
step_count)` with round-half-up nearest rounding. -/
def quantize (speed : ℚ) (step : Nat) : Nat :=
  (⌊speed * (step : ℚ) + 1 / 2⌋).toNat

/-- Modelled from the spec: the per-actuator diff of `update_vibration`.
Walks the actuators (one step count each, actuator number `i`), compares the
quantized requested value against `current`, and returns the pair (changed
values vector, new current vector).  An actuator without a subcommand in the
message is unchanged. -/
def diffVibrate (subs : List VibrateSubcommand) :
    Nat → List Nat → List (Option Nat) → List (Option Nat) × List (Option Nat)
  | _, [], _ => ([], [])
  | i, st :: sts, cur =>
      match subs.find? (fun s => s.index == i) with
      | none =>
          (none :: (diffVibrate subs (i + 1) sts cur.tail).1,
           cur.headD none :: (diffVibrate subs (i + 1) sts cur.tail).2)
      | some s =>
          if cur.headD none = some (quantize s.speed st) then
            (none :: (diffVibrate subs (i + 1) sts cur.tail).1,
             cur.headD none :: (diffVibrate subs (i + 1) sts cur.tail).2)
          else
            (some (quantize s.speed st) :: (diffVibrate subs (i + 1) sts cur.tail).1,
             some (quantize s.speed st) :: (diffVibrate subs (i + 1) sts cur.tail).2)

/-- Modelled from the spec: `update_vibration(cmd, match_all = false)`.
Errors: `FeatureNotSupported` when the device has no vibrate capability (no
step counts), `InvalidActuatorIndex` when a subcommand index is at least
`feature_count`.  If every actuator is unchanged the result is `Ok(None)` and
the state is untouched; otherwise `current` is updated and the changed-value
vector is returned. -/
def update_vibration (m : GenericCommandManager) (subs : List VibrateSubcommand) :
    Except GCMError (GenericCommandManager × Option (List (Option Nat))) :=
  if m.step_counts.isEmpty then .error .featureNotSupported
  else if subs.any (fun s => decide (m.step_counts.length ≤ s.index)) then
    .error .invalidActuatorIndex
  else
    if (diffVibrate subs 0 m.step_counts m.current).1.all Option.isNone then
      .ok (m, none)
    else
      .ok ({ m with current := (diffVibrate subs 0 m.step_counts m.current).2 },
           some (diffVibrate subs 0 m.step_counts m.current).1)

/-- Embedding of the full `LovehoneyDesire::handle_vibrate_cmd` body: call
`update_vibration`, emit nothing on `Ok(None)`, emit the frames of
`lovehoney_frames` on `Ok(Some(cmds))`; errors propagate. -/
def lovehoney_handle_vibrate_cmd (m : GenericCommandManager)
    (subs : List VibrateSubcommand) :
    Except GCMError (GenericCommandManager × List (List Nat)) :=
  match update_vibration m subs with
  | .error e => .error e
  | .ok (m2, none) => .ok (m2, [])
  | .ok (m2, some cmds) => .ok (m2, lovehoney_frames cmds)

/-! ## Device manager event loop

Embedding of DeviceManagerEventLoop from
src/buttplug/src/server/device_manager_event_loop.rs.  The DashMap /
DashSet collections are modelled as association lists / lists; the
broadcasts on server_sender and the spawned device-creation tasks are
modelled as explicit outputs of the handlers. -/

/-- A live device as the event loop sees it: its transport address and name
(the capability attributes play no role in the checked properties). -/
structure ButtplugDevice where
  address : String
  name : String
deriving DecidableEq

/-- Observable actions of the event loop handlers: messages broadcast on
server_sender plus the spawning of a device-creation task
(try_create_new_device).  The deviceAdded output records, besides the wire
fields index and name, the address of the device it describes, so that
properties relating broadcasts to addresses can be stated. -/
inductive ServerOutput where
  | scanningFinished
  | deviceAdded (index : Nat) (address : String) (name : String)
  | deviceRemoved (index : Nat)
  | spawnDeviceCreation (name : String) (address : String)
deriving DecidableEq

/-- DeviceCommunicationEvent as received from the comm managers.  The opaque
device-impl creator of DeviceFound is represented by the name/address pair it
is keyed on. -/
inductive DeviceCommunicationEvent where
  | scanningStarted
  | scanningFinished
  | deviceFound (name : String) (address : String)
  | deviceManagerAdded (status : Bool)
deriving DecidableEq

/-- ButtplugDeviceEvent as received on the device event channel. -/
inductive ButtplugDeviceEvent where
  | connected (device : ButtplugDevice)
  | removed (address : String)
  | notification (address : String)
deriving DecidableEq

/-- State owned by DeviceManagerEventLoop.  scanning_status atomics are
snapshotted as Bools; device_map and device_index_map are association
lists. -/
structure DMState where
  scanning_in_progress : Bool
  comm_manager_scanning_statuses : List Bool
  device_index_generator : Nat
  device_index_map : List (String × Nat)
  device_map : List (Nat × ButtplugDevice)
  device_allow_list : List String
  device_deny_list : List String
deriving DecidableEq

/-- Lookup in the address-to-index map (DashMap::get keyed by address). -/
def lookupAddr (a : String) : List (String × Nat) → Option Nat
  | [] => none
  | (b, i) :: rest => if a = b then some i else lookupAddr a rest

/-- Removal from the device map (DashMap::remove keyed by index; keys are
unique, so removing every entry with the key is the same operation). -/
def removeIndex (i : Nat) : List (Nat × ButtplugDevice) → List (Nat × ButtplugDevice)
  | [] => []
  | e :: rest => if e.1 = i then removeIndex i rest else e :: removeIndex i rest

/-- DashMap::contains_key on the device map. -/
def containsIndex (i : Nat) : List (Nat × ButtplugDevice) → Bool
  | [] => false
  | e :: rest => if e.1 = i then true else containsIndex i rest

/-- The `for device_entry in self.device_map.iter()` loop of the DeviceFound
handler: does any connected device have this address? -/
def containsAddress (a : String) : List (Nat × ButtplugDevice) → Bool
  | [] => false
  | e :: rest => if e.2.address = a then true else containsAddress a rest

/-- Embedding of DeviceManagerEventLoop::handle_device_communication.  The
deny-list and allow-list loops of the source compare each stored address for
equality, i.e. they decide list membership. -/
def handle_device_communication (st : DMState) :
    DeviceCommunicationEvent → DMState × List ServerOutput
  | .scanningStarted => ({ st with scanning_in_progress := true }, [])
  | .scanningFinished =>
      if !st.scanning_in_progress then (st, [])
      else if st.comm_manager_scanning_statuses.any (fun x => x) then (st, [])
      else ({ st with scanning_in_progress := false }, [ServerOutput.scanningFinished])
  | .deviceFound nm a =>
      if a ∈ st.device_deny_list then (st, [])
      else if ¬st.device_allow_list.isEmpty ∧ a ∉ st.device_allow_list then (st, [])
      else if containsAddress a st.device_map then (st, [])
      else (st, [ServerOutput.spawnDeviceCreation nm a])
  | .deviceManagerAdded b =>
      ({ st with comm_manager_scanning_statuses :=
                   st.comm_manager_scanning_statuses ++ [b] }, [])

/-- Embedding of DeviceManagerEventLoop::handle_device_event.  `none` models a
panic of the event loop task (a Rust `.unwrap()` of a missing value).

Connected(device): the generator is read and incremented, the index map is
consulted for a reusable index (recording the freshly generated one when the
address is new), an index collision ejects the old device from the device map
(its disconnect reaches the loop later as a Removed event on the device event
channel, which this handler does not emit), the new device is inserted, and
DeviceAdded is broadcast.  Since removeIndex on a map without the key is the
identity, the unconditional removeIndex is the `if contains_key { remove }` of
the source.

Removed(address): the source unwraps both the index-map lookup and the
device-map removal; a missing entry in either is a panic, hence `none`.

Notification: currently a no-op in the source. -/
def handle_device_event (st : DMState) :
    ButtplugDeviceEvent → Option (DMState × List ServerOutput)
  | .connected d =>
      match lookupAddr d.address st.device_index_map with
      | some id =>
          some ({ st with
                    device_index_generator := st.device_index_generator + 1,
                    device_map := (id, d) :: removeIndex id st.device_map },
                [ServerOutput.deviceAdded id d.address d.name])
      | none =>
          some ({ st with
                    device_index_generator := st.device_index_generator + 1,
                    device_index_map :=
                      (d.address, st.device_index_generator) :: st.device_index_map,
                    device_map :=
                      (st.device_index_generator, d) ::
                        removeIndex st.device_index_generator st.device_map },
                [ServerOutput.deviceAdded st.device_index_generator d.address d.name])
  | .removed a =>
      match lookupAddr a st.device_index_map with
      | none => none
      | some device_index =>
          if containsIndex device_index st.device_map then
            some ({ st with device_map := removeIndex device_index st.device_map },
                  [ServerOutput.deviceRemoved device_index])
          else none
  | .notification _ => some (st, [])

/-- An action visible to the scanning aggregate: either a
DeviceCommunicationEvent handled by the loop, or a transport storing a new
value into its scanning_status atomic (position i of the status list). -/
inductive LoopAction where
  | comm (ev : DeviceCommunicationEvent)
  | setScanningStatus (i : Nat) (b : Bool)
deriving DecidableEq

/-- One step of the scanning aggregate: comm events go through
handle_device_communication; an atomic store mutates the status list and emits
nothing. -/
def step_action (st : DMState) : LoopAction → DMState × List ServerOutput
  | .comm ev => handle_device_communication st ev
  | .setScanningStatus i b =>
      ({ st with comm_manager_scanning_statuses :=
                   st.comm_manager_scanning_statuses.set i b }, [])

/-- Run of the event loop over a sequence of actions, accumulating the
outputs in order. -/
def run_comm (st : DMState) : List LoopAction → DMState × List ServerOutput
  | [] => (st, [])
  | a :: rest =>
      ((run_comm (step_action st a).1 rest).1,
       (step_action st a).2 ++ (run_comm (step_action st a).1 rest).2)

/-- Run of the event loop over a sequence of device events; `none` as soon as
one handler panics. -/
def run_device (st : DMState) : List ButtplugDeviceEvent → Option (DMState × List ServerOutput)
  | [] => some (st, [])
  | e :: rest =>
      match handle_device_event st e with
      | none => none
      | some (st1, out1) =>
          match run_device st1 rest with
          | none => none
          | some (st2, out2) => some (st2, out1 ++ out2)

/-- Number of ScanningFinished broadcasts in an output list. -/
def countSF : List ServerOutput → Nat
  | [] => 0
  | ServerOutput.scanningFinished :: rest => countSF rest + 1
  | _ :: rest => countSF rest

/-- Number of ScanningStarted events in an action sequence. -/
def countStarted : List LoopAction → Nat
  | [] => 0
  | LoopAction.comm DeviceCommunicationEvent.scanningStarted :: rest => countStarted rest + 1
  | _ :: rest => countStarted rest

/-- Number of Connected events in a device event sequence. -/
def countConnected : List ButtplugDeviceEvent → Nat
  | [] => 0
  | ButtplugDeviceEvent.connected _ :: rest => countConnected rest + 1
  | _ :: rest => countConnected rest

/-- The scanning_in_progress flag as a 0/1 count. -/
def sipFlag (st : DMState) : Nat :=
  if st.scanning_in_progress then 1 else 0

/-- The freshly constructed event loop state: nothing scanning, no comm
managers registered, generator at 0, all maps and lists empty. -/
def dmInitial : DMState :=
  { scanning_in_progress := false
    comm_manager_scanning_statuses := []
    device_index_generator := 0
    device_index_map := []
    device_map := []
    device_allow_list := []
    device_deny_list := [] }

/-! ## Lovense HID dongle communication manager

Embedding of the read thread and of start_scanning from
src/buttplug/src/server/comm_managers/lovense_dongle/lovense_hid_dongle_comm_manager.rs. -/

/-- The Rust str::split of a character string on the newline character:
maximal (possibly empty) runs between newlines, including the run after the
last newline. -/
def splitNl : List Char → List (List Char)
  | [] => [[]]
  | c :: rest =>
      if c = '\n' then [] :: splitNl rest
      else (c :: (splitNl rest).headD []) :: (splitNl rest).tail

/-- Embedding of one loop iteration of hid_read_thread for a report that read
a positive number of bytes: the report bytes minus the trailing null
(`buf[0..len - 1]`) are appended to the accumulated buffer `data`; if the
buffer now contains a newline it is split on newlines, the deserializer is run
on `msg_vec[0]` only (modelled as forwarding that first record's text), and
the whole buffer is reset to empty (`data = String::default()`).  The result
is the new buffer and the records forwarded into the bounded channel. -/
def hid_read_step (data : List Char) (report : List Char) :
    List Char × List (List Char) :=
  if (data ++ report.dropLast).contains '\n' then
    ([], [(splitNl (data ++ report.dropLast)).headD []])
  else
    (data ++ report.dropLast, [])

/-- Commands sent to the dongle state machine on machine_sender. -/
inductive LovenseDeviceCommand where
  | dongleFound
  | startScanning
  | stopScanning
deriving DecidableEq

/-- Observable state of a LovenseHIDDongleCommunicationManager: its
is_scanning atomic and the commands it has queued to the state machine
channel. -/
structure LovenseHIDDongleManagerState where
  is_scanning : Bool
  machine_queue : List LovenseDeviceCommand
deriving DecidableEq

/-- Embedding of LovenseHIDDongleCommunicationManager::start_scanning: the
manager stores true into its is_scanning atomic, sends
LovenseDeviceCommand::StartScanning on the state machine channel, and the
returned future resolves Ok (modelled by the Bool `true`).  Nothing in this
method depends on whether a dongle was found. -/
def hid_mgr_start_scanning (st : LovenseHIDDongleManagerState) :
    LovenseHIDDongleManagerState × Bool :=
  ({ st with is_scanning := true,
             machine_queue := st.machine_queue ++ [LovenseDeviceCommand.startScanning] },
   true)

/-- Observable state of a manager whose construction found no dongle:
find_dongle reported its one-shot error, no DongleFound command was queued,
and the is_scanning atomic is false. -/
def dongleless_manager : LovenseHIDDongleManagerState :=
  { is_scanning := false, machine_queue := [] }

/-- Generic command manager of a freshly connected Lovehoney Desire: two
motors of step count 20, nothing written yet. -/
def gcmFresh : GenericCommandManager :=
  { step_counts := [20, 20], current := [none, none] }

/-- The VibrateCmd subcommand list setting motor 0 to speed one half. -/
def subsHalf : List VibrateSubcommand :=
  [{ index := 0, speed := 1 / 2 }]

/-- Generic command manager state after motor 0 was set to quantized value
10. -/
def gcmHalf : GenericCommandManager :=
  { step_counts := [20, 20], current := [some 10, none] }

/-- Event loop state with one connected device of address "A" at index 0. -/
def dmWithA : DMState :=
  { dmInitial with
      device_index_generator := 1
      device_index_map := [("A", 0)]
      device_map := [(0, { address := "A", name := "Desire" })] }

/-- Event loop state mid-scan: scanning_in_progress with one registered comm
manager whose scanning_status atomic reads false. -/
def dmScanning : DMState :=
  { dmInitial with
      scanning_in_progress := true
      comm_manager_scanning_statuses := [false] }

/-- Event loop state whose deny list bars address "A". -/
def dmDenyA : DMState :=
  { dmInitial with device_deny_list := ["A"] }

/-- A concrete scan lifecycle: start scanning, transport stores false into
its status atomic, transport signals ScanningFinished. -/
def actsEx : List LoopAction :=
  [LoopAction.comm DeviceCommunicationEvent.scanningStarted,
   LoopAction.setScanningStatus 0 false,
   LoopAction.comm DeviceCommunicationEvent.scanningFinished]

/-- A device at address "A". -/
def devA : ButtplugDevice := { address := "A", name := "Desire" }

/-- A device at address "B". -/
def devB : ButtplugDevice := { address := "B", name := "Max" }

/-- A reconnect sequence for address "A": connect, disconnect, reconnect. -/
def esEx : List ButtplugDeviceEvent :=
  [ButtplugDeviceEvent.connected devA,
   ButtplugDeviceEvent.removed "A",
   ButtplugDeviceEvent.connected devA]

/-- An event sequence whose reconnect of "A" burns index 1, so the later
fresh address "B" receives the non-contiguous index 2. -/
def esEx2 : List ButtplugDeviceEvent :=
  [ButtplugDeviceEvent.connected devA,
   ButtplugDeviceEvent.connected devA,
   ButtplugDeviceEvent.connected devB]

/-! ## Theorems -/

theorem all_windows_eq_of_const (l : List (Option Nat)) (x : Option Nat)
    (h : ∀ c ∈ l, c = x) : all_windows_eq l = true := by
  induction l with
  | nil => rfl
  | cons a rest ih =>
    cases rest with
    | nil => rfl
    | cons b rest2 =>
      have ha : a = x := h a (by simp)
      have hb : b = x := h b (by simp)
      have htail := ih fun c hc => h c (List.mem_cons_of_mem _ hc)
      simp only [all_windows_eq]
      rw [if_pos (ha.trans hb.symm)]
      exact htail

theorem all_windows_eq_head (l : List (Option Nat)) :
    ∀ c : Option Nat, all_windows_eq (c :: l) = true → ∀ b ∈ c :: l, b = c := by
  induction l with
  | nil =>
    intro c _ b hb
    simpa using hb
  | cons d rest ih =>
    intro c h b hb
    simp only [all_windows_eq] at h
    by_cases hcd : c = d
    · rw [if_pos hcd] at h
      rcases List.mem_cons.mp hb with hb | hb
      · exact hb
      · exact (ih d h b hb).trans hcd.symm
    · rw [if_neg hcd] at h
      exact absurd h (by simp)

theorem frames_of_mixed (cmds : List (Option Nat))
    (h : ∃ a ∈ cmds, ∃ b ∈ cmds, a ≠ b) :
    lovehoney_frames cmds = lovehoney_separate 1 cmds := by
  obtain ⟨a, ha, b, hb, hab⟩ := h
  cases cmds with
  | nil => simp at ha
  | cons c0 rest =>
    have hwin : all_windows_eq (c0 :: rest) = false := by
      cases hB : all_windows_eq (c0 :: rest) with
      | false => rfl
      | true =>
        have hall := all_windows_eq_head rest c0 hB
        exact absurd ((hall a ha).trans (hall b hb).symm) hab
    simp [lovehoney_frames, hwin]

/-- C3: when every entry of the changed-value vector handed to
LovehoneyDesire::handle_vibrate_cmd is present and equal — all actuators are
to move to the same value q — the handler emits exactly one transport write,
the combined both-motors frame [0xF3, 0x00, q], and nothing else.  The bound
q < 256 holds for every value the generic command manager can produce for
this device (values are quantized into [0, step_count]). -/
theorem lovehoney_equal_values_single_combined_write :
    ∀ (cmds : List (Option Nat)) (q : Nat),
      cmds ≠ [] → (∀ c ∈ cmds, c = some q) → q < 256 →
      lovehoney_frames cmds = [[0xF3, 0, q]] := by
  intro cmds q hne hall hq
  cases cmds with
  | nil => exact absurd rfl hne
  | cons c0 rest =>
    have h0 : c0 = some q := hall c0 (by simp)
    have hwin := all_windows_eq_of_const (c0 :: rest) (some q)
      (fun c hc => hall c hc)
    subst h0
    simp [lovehoney_frames, hwin, Nat.mod_eq_of_lt hq]

/-- Witness for C3, the spec's scenario 2: both motors changed to the same
quantized value 2 (speed 0.1 on step count 20) yields the single combined
write. -/
theorem lovehoney_equal_values_single_combined_write_witness :
    (([some 2, some 2] : List (Option Nat)) ≠ [] ∧
       (∀ c ∈ ([some 2, some 2] : List (Option Nat)), c = some 2) ∧ 2 < 256) ∧
    lovehoney_frames [some 2, some 2] = [[0xF3, 0, 2]] :=
  ⟨⟨by decide, by decide, by decide⟩,
   lovehoney_equal_values_single_combined_write [some 2, some 2] 2
     (by decide) (by decide) (by decide)⟩

theorem get?_mem_opt :
    ∀ (l : List (Option Nat)) (n : Nat) (a : Option Nat), l.get? n = some a → a ∈ l := by
  intro l
  induction l with
  | nil => intro n a h; simp [List.get?] at h
  | cons x xs ih =>
    intro n a h
    cases n with
    | zero =>
      simp only [List.get?] at h
      cases h
      exact List.mem_cons_self _ _
    | succ m =>
      exact List.mem_cons_of_mem _ (ih m a h)

theorem lovehoney_separate_mem :
    ∀ (cmds : List (Option Nat)) (k j q : Nat), cmds.get? j = some (some q) →
      [0xF3, (k + j) % 256, q % 256] ∈ lovehoney_separate k cmds := by
  intro cmds
  induction cmds with
  | nil => intro k j q h; simp [List.get?] at h
  | cons c rest ih =>
    intro k j q h
    cases j with
    | zero =>
      simp only [List.get?] at h
      cases h
      simp [lovehoney_separate]
    | succ m =>
      simp only [List.get?] at h
      have hm := ih (k + 1) m q h
      have harith : k + 1 + m = k + (m + 1) := by omega
      rw [harith] at hm
      cases c with
      | none => simpa [lovehoney_separate] using hm
      | some sp => exact List.mem_cons_of_mem _ hm

theorem lovehoney_separate_mem_inv :
    ∀ (cmds : List (Option Nat)) (k : Nat) (w : List Nat),
      w ∈ lovehoney_separate k cmds →
      ∃ j q, cmds.get? j = some (some q) ∧ w = [0xF3, (k + j) % 256, q % 256] := by
  intro cmds
  induction cmds with
  | nil => intro k w h; simp [lovehoney_separate] at h
  | cons c rest ih =>
    intro k w h
    cases c with
    | none =>
      simp only [lovehoney_separate] at h
      obtain ⟨j, q, hg, hw⟩ := ih (k + 1) w h
      refine ⟨j + 1, q, by simpa [List.get?] using hg, ?_⟩
      rw [hw]
      have : k + 1 + j = k + (j + 1) := by omega
      rw [this]
    | some sp =>
      simp only [lovehoney_separate, List.mem_cons] at h
      rcases h with h | h
      · exact ⟨0, sp, by simp [List.get?], by simpa using h⟩
      · obtain ⟨j, q, hg, hw⟩ := ih (k + 1) w h
        refine ⟨j + 1, q, by simpa [List.get?] using hg, ?_⟩
        rw [hw]
        have : k + 1 + j = k + (j + 1) := by omega
        rw [this]

theorem lovehoney_separate_pairwise :
    ∀ (cmds : List (Option Nat)) (k : Nat), k + cmds.length ≤ 256 →
      List.Pairwise (fun v w : List Nat => v.getD 1 0 < w.getD 1 0)
          (lovehoney_separate k cmds) ∧
        ∀ w ∈ lovehoney_separate k cmds, k ≤ w.getD 1 0 := by
  intro cmds
  induction cmds with
  | nil =>
    intro k _
    exact ⟨List.Pairwise.nil, by intro w hw; simp [lovehoney_separate] at hw⟩
  | cons c rest ih =>
    intro k hk
    have hk1 : k + 1 + rest.length ≤ 256 := by
      simp only [List.length_cons] at hk; omega
    obtain ⟨ihp, ihb⟩ := ih (k + 1) hk1
    cases c with
    | none =>
      refine ⟨by simpa [lovehoney_separate] using ihp, ?_⟩
      intro w hw
      have := ihb w (by simpa [lovehoney_separate] using hw)
      omega
    | some sp =>
      have hklt : k < 256 := by simp only [List.length_cons] at hk; omega
      constructor
      · simp only [lovehoney_separate]
        refine List.pairwise_cons.mpr ⟨?_, ihp⟩
        intro w hw
        have hb := ihb w hw
        have hgd : ([0xF3, k % 256, sp % 256] : List Nat).getD 1 0 = k % 256 := rfl
        rw [hgd, Nat.mod_eq_of_lt hklt]
        omega
      · intro w hw
        simp only [lovehoney_separate, List.mem_cons] at hw
        rcases hw with rfl | hw
        · show k ≤ ([0xF3, k % 256, sp % 256] : List Nat).getD 1 0
          have hgd : ([0xF3, k % 256, sp % 256] : List Nat).getD 1 0 = k % 256 := rfl
          rw [hgd, Nat.mod_eq_of_lt hklt]
        · have := ihb w hw; omega

theorem get?_lt_length :
    ∀ (l : List (Option Nat)) (n : Nat) (a : Option Nat),
      l.get? n = some a → n < l.length := by
  intro l
  induction l with
  | nil => intro n a h; simp [List.get?] at h
  | cons x xs ih =>
    intro n a h
    cases n with
    | zero => simp
    | succ m =>
      simp only [List.get?] at h
      have := ih m a h
      simp only [List.length_cons]
      omega

/-- C4: when the changed-value vector contains differing values, the handler
emits one separate-motor write [0xF3, i+1, q] for exactly the positions i
holding Some q (1-based motor address), skips every None entry, and the writes
appear in increasing motor order (they are awaited sequentially in list
order).  The bounds on the length and the values hold for every vector the
generic command manager can produce for this device. -/
theorem lovehoney_mixed_values_separate_writes :
    ∀ cmds : List (Option Nat),
      (∃ a ∈ cmds, ∃ b ∈ cmds, a ≠ b) →
      cmds.length ≤ 255 →
      (∀ c ∈ cmds, ∀ q : Nat, c = some q → q < 256) →
      (∀ i q, cmds.get? i = some (some q) →
         [0xF3, i + 1, q] ∈ lovehoney_frames cmds) ∧
      (∀ w ∈ lovehoney_frames cmds,
         ∃ i q, cmds.get? i = some (some q) ∧ w = [0xF3, i + 1, q]) ∧
      List.Pairwise (fun v w : List Nat => v.getD 1 0 < w.getD 1 0)
        (lovehoney_frames cmds) := by
  intro cmds hmix hlen hrange
  rw [frames_of_mixed cmds hmix]
  refine ⟨?_, ?_, (lovehoney_separate_pairwise cmds 1 (by omega)).1⟩
  · intro i q hg
    have hmem := lovehoney_separate_mem cmds 1 i q hg
    have hi : i < cmds.length := get?_lt_length cmds i (some q) hg
    have hq : q < 256 := hrange (some q) (get?_mem_opt cmds i (some q) hg) q rfl
    have h1 : (1 + i) % 256 = i + 1 := by omega
    rw [h1, Nat.mod_eq_of_lt hq] at hmem
    exact hmem
  · intro w hw
    obtain ⟨j, q, hg, hweq⟩ := lovehoney_separate_mem_inv cmds 1 w hw
    have hj : j < cmds.length := get?_lt_length cmds j (some q) hg
    have hq : q < 256 := hrange (some q) (get?_mem_opt cmds j (some q) hg) q rfl
    refine ⟨j, q, hg, ?_⟩
    rw [hweq]
    have h1 : (1 + j) % 256 = j + 1 := by omega
    rw [h1, Nat.mod_eq_of_lt hq]

/-- Witness for C4, the spec's scenario 3: motors changed to 0 and 10 yield
the two separate writes in increasing motor order. -/
theorem lovehoney_mixed_values_separate_writes_witness :
    ((∃ a ∈ ([some 0, some 10] : List (Option Nat)),
        ∃ b ∈ ([some 0, some 10] : List (Option Nat)), a ≠ b) ∧
      ([some 0, some 10] : List (Option Nat)).length ≤ 255 ∧
      (∀ c ∈ ([some 0, some 10] : List (Option Nat)), ∀ q : Nat, c = some q → q < 256)) ∧
    [0xF3, 1, 0] ∈ lovehoney_frames [some 0, some 10] ∧
    [0xF3, 2, 10] ∈ lovehoney_frames [some 0, some 10] ∧
    List.Pairwise (fun v w : List Nat => v.getD 1 0 < w.getD 1 0)
      (lovehoney_frames [some 0, some 10]) :=
  ⟨⟨by decide, by decide, by decide⟩,
   (lovehoney_mixed_values_separate_writes [some 0, some 10]
       (by decide) (by decide) (by decide)).1 0 0 (by decide),
   (lovehoney_mixed_values_separate_writes [some 0, some 10]
       (by decide) (by decide) (by decide)).1 1 10 (by decide),
   (lovehoney_mixed_values_separate_writes [some 0, some 10]
       (by decide) (by decide) (by decide)).2.2⟩

theorem diffVibrate_again (subs : List VibrateSubcommand) :
    ∀ (sts : List Nat) (i : Nat) (cur : List (Option Nat)),
      (diffVibrate subs i sts (diffVibrate subs i sts cur).2).1.all Option.isNone = true := by
  intro sts
  induction sts with
  | nil => intro i cur; rfl
  | cons st sts ih =>
    intro i cur
    cases hf : subs.find? (fun s => s.index == i) with
    | none =>
      simp only [diffVibrate, hf, List.headD_cons, List.tail_cons, List.all_cons,
        Option.isNone_none, Bool.true_and]
      exact ih (i + 1) cur.tail
    | some s =>
      by_cases hc : cur.headD none = some (quantize s.speed st)
      · simp only [diffVibrate, hf, if_pos hc, List.headD_cons, List.tail_cons,
          List.all_cons, Option.isNone_none, Bool.true_and]
        exact ih (i + 1) cur.tail
      · simp only [diffVibrate, hf, if_neg hc, List.headD_cons, List.tail_cons,
          if_pos rfl, List.all_cons, Option.isNone_none, Bool.true_and]
        exact ih (i + 1) cur.tail

/-- C5: handling the same VibrateCmd twice in immediate succession on the same
device emits zero transport writes the second time and returns Ok: after the
first handling, every mentioned actuator's cached current value equals its
quantized target, so update_vibration returns Ok(None) and the handler emits
nothing. -/
theorem lovehoney_repeat_command_emits_nothing :
    ∀ (m : GenericCommandManager) (subs : List VibrateSubcommand)
      (m2 : GenericCommandManager) (w : List (List Nat)),
      lovehoney_handle_vibrate_cmd m subs = Except.ok (m2, w) →
      lovehoney_handle_vibrate_cmd m2 subs = Except.ok (m2, []) := by
  intro m subs m2 w h
  unfold lovehoney_handle_vibrate_cmd update_vibration at h ⊢
  by_cases he : m.step_counts.isEmpty
  · simp [he] at h
  · by_cases hidx : subs.any (fun s => decide (m.step_counts.length ≤ s.index)) = true
    · simp [he, hidx] at h
    · by_cases hall :
        (diffVibrate subs 0 m.step_counts m.current).1.all Option.isNone = true
      · rw [if_neg he, if_neg hidx, if_pos hall] at h
        have h2 : (Except.ok (m, ([] : List (List Nat))) :
            Except GCMError (GenericCommandManager × List (List Nat))) =
            Except.ok (m2, w) := h
        injection h2 with h3
        injection h3 with hm hw
        subst hm
        rw [if_neg he, if_neg hidx, if_pos hall]
      · rw [if_neg he, if_neg hidx, if_neg hall] at h
        have h2 : (Except.ok
            (({ m with current := (diffVibrate subs 0 m.step_counts m.current).2 } :
                GenericCommandManager),
             lovehoney_frames (diffVibrate subs 0 m.step_counts m.current).1) :
            Except GCMError (GenericCommandManager × List (List Nat))) =
            Except.ok (m2, w) := h
        injection h2 with h3
        injection h3 with hm hw
        subst hm
        have he2 : ¬(({ m with
            current := (diffVibrate subs 0 m.step_counts m.current).2 } :
            GenericCommandManager).step_counts.isEmpty = true) := he
        have hidx2 : ¬(subs.any (fun s => decide
            (({ m with
                current := (diffVibrate subs 0 m.step_counts m.current).2 } :
              GenericCommandManager).step_counts.length ≤ s.index)) = true) := hidx
        have hall2 : (diffVibrate subs 0
            (({ m with
                current := (diffVibrate subs 0 m.step_counts m.current).2 } :
              GenericCommandManager)).step_counts
            (({ m with
                current := (diffVibrate subs 0 m.step_counts m.current).2 } :
              GenericCommandManager)).current).1.all Option.isNone = true :=
          diffVibrate_again subs m.step_counts 0 m.current
        rw [if_neg he2, if_neg hidx2, if_pos hall2]

theorem quantize_half_twenty : quantize (2 : ℚ)⁻¹ 20 = 10 := by
  unfold quantize
  have h : (⌊(2 : ℚ)⁻¹ * ((20 : ℕ) : ℚ) + 1 / 2⌋ : ℤ) = 10 := by norm_num
  rw [h]
  rfl

theorem lovehoney_first_half_cmd :
    lovehoney_handle_vibrate_cmd gcmFresh subsHalf = Except.ok (gcmHalf, [[0xF3, 1, 10]]) := by
  unfold lovehoney_handle_vibrate_cmd update_vibration gcmFresh subsHalf gcmHalf
  simp [diffVibrate, List.find?, quantize_half_twenty, lovehoney_frames,
    all_windows_eq, lovehoney_separate]

/-- Witness for C5, the spec's scenario 1 repeated: setting motor 0 to speed
one half writes [0xF3, 0x01, 0x0A] once; the identical command immediately
after emits nothing and returns Ok. -/
theorem lovehoney_repeat_command_emits_nothing_witness :
    lovehoney_handle_vibrate_cmd gcmFresh subsHalf = Except.ok (gcmHalf, [[0xF3, 1, 10]]) ∧
    lovehoney_handle_vibrate_cmd gcmHalf subsHalf = Except.ok (gcmHalf, []) :=
  ⟨lovehoney_first_half_cmd,
   lovehoney_repeat_command_emits_nothing gcmFresh subsHalf gcmHalf [[0xF3, 1, 10]]
     lovehoney_first_half_cmd⟩

/-- C8, demonstration of the code bug: after a single report carrying the two
complete newline-delimited records "A" and "B" (plus the stripped trailing
null byte), the read thread forwards only the first record and clears the
whole buffer, dropping the complete record "B" — despite the source's own
"Save off the extra." comment and the claim that every record is
forwarded. -/
theorem hid_read_forwards_only_first_record :
    hid_read_step [] ['A', '\n', 'B', '\n', Char.ofNat 0] = ([], [['A']]) ∧
    ['B'] ∉ (hid_read_step [] ['A', '\n', 'B', '\n', Char.ofNat 0]).2 := by
  exact ⟨by decide, by decide⟩

/-- C9, counterexample: start_scanning on a dongle-less manager does not
leave the manager's observable state unchanged — the source stores true into
the scanning_status atomic unconditionally, so the atomic flips from false to
true. -/
theorem start_scanning_changes_dongleless_state :
    (hid_mgr_start_scanning dongleless_manager).1.is_scanning = true ∧
    dongleless_manager.is_scanning = false ∧
    (hid_mgr_start_scanning dongleless_manager).1 ≠ dongleless_manager := by
  exact ⟨rfl, rfl, by decide⟩

/-- C9, amended: start_scanning performs no dongle I/O itself and its future
resolves Ok — it only queues a StartScanning command to the state machine
channel — but it stores true into the manager's scanning_status atomic, on a
dongle-less manager exactly as on any other. -/
theorem start_scanning_dongleless_behavior :
    ∀ st : LovenseHIDDongleManagerState,
      (hid_mgr_start_scanning st).2 = true ∧
      (hid_mgr_start_scanning st).1.is_scanning = true ∧
      (hid_mgr_start_scanning st).1.machine_queue =
        st.machine_queue ++ [LovenseDeviceCommand.startScanning] :=
  fun _ => ⟨rfl, rfl, rfl⟩

/-- C6, counterexample: a Removed event whose address has no entry in
device_index_map makes handle_device_event panic (the source unwraps the
missing lookup), modelled as none — the event loop does not log, drop and
keep running as claimed. -/
theorem removed_unknown_address_panics :
    handle_device_event dmInitial (ButtplugDeviceEvent.removed "A") = none := rfl

/-- C6, amended: when a Removed(address) has no entry in device_index_map the
event loop panics (unwrap of a missing map entry) instead of logging and
dropping the event; when the entry exists and the device is present in
device_map, the device is removed from device_map, DeviceRemoved{index} is
broadcast, and the address-to-index mapping is retained (only device_map
changes in the resulting state). -/
theorem removed_event_behavior :
    ∀ (st : DMState) (a : String),
      (lookupAddr a st.device_index_map = none →
        handle_device_event st (ButtplugDeviceEvent.removed a) = none) ∧
      ∀ i : Nat, lookupAddr a st.device_index_map = some i →
        containsIndex i st.device_map = true →
        handle_device_event st (ButtplugDeviceEvent.removed a) =
          some ({ st with device_map := removeIndex i st.device_map },
                [ServerOutput.deviceRemoved i]) := by
  intro st a
  constructor
  · intro h
    simp only [handle_device_event, h]
  · intro i hi hc
    simp only [handle_device_event, hi, if_pos hc]

/-- Witness for C6's amended claim at concrete states: removing the known
address "A" deletes the device, broadcasts DeviceRemoved 0 and keeps the
index map; removing it from the fresh state panics. -/
theorem removed_event_behavior_witness :
    handle_device_event dmWithA (ButtplugDeviceEvent.removed "A") =
      some ({ dmWithA with device_map := removeIndex 0 dmWithA.device_map },
            [ServerOutput.deviceRemoved 0]) ∧
    handle_device_event dmInitial (ButtplugDeviceEvent.removed "A") = none :=
  ⟨(removed_event_behavior dmWithA "A").2 0 (by decide) (by decide),
   (removed_event_behavior dmInitial "A").1 (by decide)⟩

theorem containsAddress_eq_false_iff (a : String) :
    ∀ m : List (Nat × ButtplugDevice),
      containsAddress a m = false ↔ ∀ e ∈ m, e.2.address ≠ a := by
  intro m
  induction m with
  | nil => simp [containsAddress]
  | cons e rest ih =>
    by_cases h : e.2.address = a
    · simp [containsAddress, h]
    · simp [containsAddress, h, ih]

theorem isEmpty_eq_nil : ∀ l : List String, l.isEmpty = true ↔ l = [] := by
  intro l
  cases l <;> simp [List.isEmpty]

/-- C7: handling DeviceFound{name, address, creator} spawns a device-creation
task exactly when the address is not in the deny list, the allow list is
empty or contains the address, and no device currently in device_map has the
same address; in every other case the event is dropped with no output at all
(in particular no DeviceAdded broadcast), and in all cases the state is
unchanged. -/
theorem deviceFound_spawn_iff_filters :
    ∀ (st : DMState) (nm a : String) (st2 : DMState) (out : List ServerOutput),
      handle_device_communication st (DeviceCommunicationEvent.deviceFound nm a) =
        (st2, out) →
      st2 = st ∧
      ((out = [ServerOutput.spawnDeviceCreation nm a]) ↔
        (a ∉ st.device_deny_list ∧
         (st.device_allow_list = [] ∨ a ∈ st.device_allow_list) ∧
         ∀ e ∈ st.device_map, e.2.address ≠ a)) ∧
      (¬(a ∉ st.device_deny_list ∧
         (st.device_allow_list = [] ∨ a ∈ st.device_allow_list) ∧
         ∀ e ∈ st.device_map, e.2.address ≠ a) → out = []) := by
  intro st nm a st2 out h
  simp only [handle_device_communication] at h
  by_cases h1 : a ∈ st.device_deny_list
  · rw [if_pos h1] at h
    injection h with hst hout
    subst hst; subst hout
    refine ⟨rfl, ?_, fun _ => rfl⟩
    constructor
    · intro hout2; exact absurd hout2 (by simp)
    · rintro ⟨hnd, -, -⟩; exact absurd h1 hnd
  · rw [if_neg h1] at h
    by_cases h2 : ¬st.device_allow_list.isEmpty ∧ a ∉ st.device_allow_list
    · rw [if_pos h2] at h
      injection h with hst hout
      subst hst; subst hout
      refine ⟨rfl, ?_, fun _ => rfl⟩
      constructor
      · intro hout2; exact absurd hout2 (by simp)
      · rintro ⟨-, hal, -⟩
        rcases hal with hal | hal
        · exact absurd ((isEmpty_eq_nil st.device_allow_list).mpr hal) h2.1
        · exact absurd hal h2.2
    · rw [if_neg h2] at h
      have hallow : st.device_allow_list = [] ∨ a ∈ st.device_allow_list := by
        by_cases hA : st.device_allow_list.isEmpty
        · exact Or.inl ((isEmpty_eq_nil st.device_allow_list).mp hA)
        · by_cases hB : a ∈ st.device_allow_list
          · exact Or.inr hB
          · exact absurd ⟨hA, hB⟩ h2
      by_cases h3 : containsAddress a st.device_map = true
      · rw [if_pos h3] at h
        injection h with hst hout
        subst hst; subst hout
        refine ⟨rfl, ?_, fun _ => rfl⟩
        constructor
        · intro hout2; exact absurd hout2 (by simp)
        · rintro ⟨-, -, hmap⟩
          have hfalse := (containsAddress_eq_false_iff a st.device_map).mpr hmap
          rw [hfalse] at h3
          exact absurd h3 (by decide)
      · rw [if_neg h3] at h
        injection h with hst hout
        subst hst; subst hout
        have hmap : ∀ e ∈ st.device_map, e.2.address ≠ a :=
          (containsAddress_eq_false_iff a st.device_map).mp
            (by cases hC : containsAddress a st.device_map with
                | false => rfl
                | true => exact absurd hC h3)
        exact ⟨rfl, Iff.intro (fun _ => ⟨h1, hallow, hmap⟩) (fun _ => rfl),
          fun hcon => absurd ⟨h1, hallow, hmap⟩ hcon⟩

/-- Witness for C7: from the fresh state, DeviceFound for address "A" passes
every filter and spawns the creation task; with "A" on the deny list the
event produces no output. -/
theorem deviceFound_spawn_iff_filters_witness :
    (handle_device_communication dmInitial
        (DeviceCommunicationEvent.deviceFound "Desire" "A")).2 =
      [ServerOutput.spawnDeviceCreation "Desire" "A"] ∧
    (handle_device_communication dmDenyA
        (DeviceCommunicationEvent.deviceFound "Desire" "A")).2 = [] :=
  ⟨(deviceFound_spawn_iff_filters dmInitial "Desire" "A" _ _ rfl).2.1.mpr
      ⟨by decide, Or.inl rfl, by decide⟩,
   (deviceFound_spawn_iff_filters dmDenyA "Desire" "A" _ _ rfl).2.2
      (by intro hcon; exact hcon.1 (by decide))⟩

theorem deviceFound_eval (st : DMState) (nm a : String) :
    handle_device_communication st (DeviceCommunicationEvent.deviceFound nm a) = (st, []) ∨
    handle_device_communication st (DeviceCommunicationEvent.deviceFound nm a) =
      (st, [ServerOutput.spawnDeviceCreation nm a]) := by
  simp only [handle_device_communication]
  by_cases h1 : a ∈ st.device_deny_list
  · rw [if_pos h1]; exact Or.inl rfl
  · rw [if_neg h1]
    by_cases h2 : ¬st.device_allow_list.isEmpty ∧ a ∉ st.device_allow_list
    · rw [if_pos h2]; exact Or.inl rfl
    · rw [if_neg h2]
      by_cases h3 : containsAddress a st.device_map = true
      · rw [if_pos h3]; exact Or.inl rfl
      · rw [if_neg h3]; exact Or.inr rfl

theorem any_self_eq_false_iff :
    ∀ l : List Bool, l.any (fun x => x) = false ↔ ∀ b ∈ l, b = false := by
  intro l
  induction l with
  | nil => simp
  | cons b rest ih => cases b <;> simp [ih]

theorem countSF_append :
    ∀ l1 l2 : List ServerOutput, countSF (l1 ++ l2) = countSF l1 + countSF l2 := by
  intro l1 l2
  induction l1 with
  | nil => simp [countSF]
  | cons x rest ih =>
    cases x with
    | scanningFinished => simp [countSF, ih]; omega
    | deviceAdded i a n => simp [countSF, ih]
    | deviceRemoved i => simp [countSF, ih]
    | spawnDeviceCreation n a => simp [countSF, ih]

theorem countStarted_cons :
    ∀ (a : LoopAction) (rest : List LoopAction),
      countStarted (a :: rest) = countStarted [a] + countStarted rest := by
  intro a rest
  rcases a with ev | ⟨i, b⟩
  · cases ev with
    | scanningStarted => simp [countStarted]; omega
    | scanningFinished => simp [countStarted]
    | deviceFound n a => simp [countStarted]
    | deviceManagerAdded b => simp [countStarted]
  · simp [countStarted]

theorem step_count_bound (st : DMState) (a : LoopAction) :
    countSF (step_action st a).2 + sipFlag (step_action st a).1 ≤
      countStarted [a] + sipFlag st := by
  rcases a with ev | ⟨i, b⟩
  · cases ev with
    | scanningStarted =>
      simp [step_action, handle_device_communication, countSF, countStarted, sipFlag]
    | deviceManagerAdded b =>
      simp [step_action, handle_device_communication, countSF, countStarted, sipFlag]
    | deviceFound nm addr =>
      rcases deviceFound_eval st nm addr with h | h <;>
        simp [step_action, h, countSF, countStarted, sipFlag]
    | scanningFinished =>
      by_cases hs : st.scanning_in_progress
      · by_cases ha : st.comm_manager_scanning_statuses.any (fun x => x) = true
        · simp [step_action, handle_device_communication, hs, ha, countSF,
            countStarted, sipFlag]
        · simp [step_action, handle_device_communication, hs, ha, countSF,
            countStarted, sipFlag]
      · simp [step_action, handle_device_communication, hs, countSF,
          countStarted, sipFlag]
  · simp [step_action, countSF, countStarted, sipFlag]

theorem run_count_bound :
    ∀ (acts : List LoopAction) (st : DMState),
      countSF (run_comm st acts).2 + sipFlag (run_comm st acts).1 ≤
        countStarted acts + sipFlag st := by
  intro acts
  induction acts with
  | nil => intro st; simp [run_comm, countSF, countStarted]
  | cons a rest ih =>
    intro st
    have hstep := step_count_bound st a
    have hrest := ih (step_action st a).1
    rw [countStarted_cons a rest]
    simp only [run_comm, countSF_append]
    omega

/-- C1: a ScanningFinished message is broadcast only while handling a
ScanningFinished communication event with scanning_in_progress true and every
registered comm-manager scanning_status reading false, and the broadcast
resets scanning_in_progress to false; the device-event handler never
broadcasts ScanningFinished; and along any interleaving of communication
events and scanning_status stores, the number of ScanningFinished broadcasts
is bounded by the number of ScanningStarted events (plus one for an initially
set flag), i.e. at most one broadcast per false-to-true transition of
scanning_in_progress and none while it is already false. -/
theorem scanningFinished_broadcast_gating :
    (∀ (st : DMState) (ev : DeviceCommunicationEvent) (st2 : DMState)
       (out : List ServerOutput),
       handle_device_communication st ev = (st2, out) →
       ((ServerOutput.scanningFinished ∈ out) ↔
          (ev = DeviceCommunicationEvent.scanningFinished ∧
           st.scanning_in_progress = true ∧
           ∀ b ∈ st.comm_manager_scanning_statuses, b = false)) ∧
       (ServerOutput.scanningFinished ∈ out → st2.scanning_in_progress = false)) ∧
    (∀ (st : DMState) (e : ButtplugDeviceEvent) (r : DMState × List ServerOutput),
       handle_device_event st e = some r →
       ServerOutput.scanningFinished ∉ r.2) ∧
    (∀ (st : DMState) (acts : List LoopAction),
       countSF (run_comm st acts).2 + sipFlag (run_comm st acts).1 ≤
         countStarted acts + sipFlag st) := by
  refine ⟨?_, ?_, fun st acts => run_count_bound acts st⟩
  · intro st ev st2 out h
    cases ev with
    | scanningStarted =>
      simp only [handle_device_communication] at h
      injection h with hst hout
      subst hst; subst hout
      simp
    | deviceManagerAdded b =>
      simp only [handle_device_communication] at h
      injection h with hst hout
      subst hst; subst hout
      simp
    | deviceFound nm addr =>
      rcases deviceFound_eval st nm addr with h2 | h2 <;> rw [h2] at h <;>
        injection h with hst hout <;> subst hst <;> subst hout <;> simp
    | scanningFinished =>
      by_cases hs : st.scanning_in_progress
      · by_cases ha : st.comm_manager_scanning_statuses.any (fun x => x) = true
        · simp only [handle_device_communication, hs, Bool.not_true,
            Bool.false_eq_true, if_false, ha, if_true] at h
          injection h with hst hout
          subst hst; subst hout
          constructor
          · simp only [List.not_mem_nil, false_iff]
            rintro ⟨-, -, hall⟩
            have := (any_self_eq_false_iff st.comm_manager_scanning_statuses).mpr hall
            rw [this] at ha
            exact absurd ha (by decide)
          · intro hmem; exact absurd hmem (by simp)
        · simp only [handle_device_communication, hs, Bool.not_true,
            Bool.false_eq_true, if_false, ha] at h
          injection h with hst hout
          subst hst; subst hout
          have hall : ∀ b ∈ st.comm_manager_scanning_statuses, b = false :=
            (any_self_eq_false_iff st.comm_manager_scanning_statuses).mp
              (by cases hA : st.comm_manager_scanning_statuses.any (fun x => x) with
                  | false => rfl
                  | true => exact absurd hA ha)
          exact ⟨Iff.intro (fun _ => ⟨rfl, hs, hall⟩)
            (fun _ => List.mem_cons_self _ _), fun _ => rfl⟩
      · simp only [handle_device_communication, hs, Bool.not_false, if_true] at h
        injection h with hst hout
        subst hst; subst hout
        constructor
        · simp only [List.not_mem_nil, false_iff]
          rintro ⟨-, hsip, -⟩
          rw [hsip] at hs
          exact hs rfl
        · intro hmem; exact absurd hmem (by simp)
  · intro st e r h
    cases e with
    | connected d =>
      cases hlook : lookupAddr d.address st.device_index_map with
      | some id =>
        simp only [handle_device_event, hlook] at h
        injection h with h2
        rw [← h2]
        simp
      | none =>
        simp only [handle_device_event, hlook] at h
        injection h with h2
        rw [← h2]
        simp
    | removed addr =>
      cases hlook : lookupAddr addr st.device_index_map with
      | none => simp [handle_device_event, hlook] at h
      | some j =>
        by_cases hc : containsIndex j st.device_map = true
        · simp only [handle_device_event, hlook, if_pos hc] at h
          injection h with h2
          rw [← h2]
          simp
        · simp only [handle_device_event, hlook] at h
          rw [if_neg hc] at h
          exact absurd h (by simp)
    | notification addr =>
      simp only [handle_device_event] at h
      injection h with h2
      rw [← h2]
      simp

/-- Witness for C1 at concrete inputs: from the mid-scan state the
ScanningFinished event does broadcast and clears the flag; the device-event
handler emits no ScanningFinished for a notification; the broadcast count
bound holds on a concrete scan lifecycle. -/
theorem scanningFinished_broadcast_gating_witness :
    ((ServerOutput.scanningFinished ∈
        (handle_device_communication dmScanning
          DeviceCommunicationEvent.scanningFinished).2) ↔
      (DeviceCommunicationEvent.scanningFinished =
         DeviceCommunicationEvent.scanningFinished ∧
       dmScanning.scanning_in_progress = true ∧
       ∀ b ∈ dmScanning.comm_manager_scanning_statuses, b = false)) ∧
    (ServerOutput.scanningFinished ∈
        (handle_device_communication dmScanning
          DeviceCommunicationEvent.scanningFinished).2 →
      (handle_device_communication dmScanning
          DeviceCommunicationEvent.scanningFinished).1.scanning_in_progress = false) ∧
    ServerOutput.scanningFinished ∉
      ((handle_device_event dmInitial (ButtplugDeviceEvent.notification "A")).getD
        (dmInitial, [])).2 ∧
    countSF (run_comm dmInitial actsEx).2 + sipFlag (run_comm dmInitial actsEx).1 ≤
      countStarted actsEx + sipFlag dmInitial :=
  ⟨(scanningFinished_broadcast_gating.1 dmScanning
      DeviceCommunicationEvent.scanningFinished _ _ rfl).1,
   (scanningFinished_broadcast_gating.1 dmScanning
      DeviceCommunicationEvent.scanningFinished _ _ rfl).2,
   scanningFinished_broadcast_gating.2.1 dmInitial
     (ButtplugDeviceEvent.notification "A") (dmInitial, []) rfl,
   scanningFinished_broadcast_gating.2.2 dmInitial actsEx⟩

theorem hde_indexmap_mono :
    ∀ (st : DMState) (e : ButtplugDeviceEvent) (st2 : DMState)
      (out : List ServerOutput),
      handle_device_event st e = some (st2, out) →
      ∀ (a : String) (i : Nat), lookupAddr a st.device_index_map = some i →
        lookupAddr a st2.device_index_map = some i := by
  intro st e st2 out h a i hl
  cases e with
  | connected d =>
    cases hlook : lookupAddr d.address st.device_index_map with
    | some id =>
      simp only [handle_device_event, hlook] at h
      injection h with h2
      injection h2 with hst hout
      subst hst
      exact hl
    | none =>
      simp only [handle_device_event, hlook] at h
      injection h with h2
      injection h2 with hst hout
      subst hst
      have hne : a ≠ d.address := by
        intro heq
        rw [heq, hlook] at hl
        exact absurd hl (by simp)
      show lookupAddr a ((d.address, st.device_index_generator) ::
        st.device_index_map) = some i
      simp only [lookupAddr, if_neg hne]
      exact hl
  | removed addr =>
    cases hlook : lookupAddr addr st.device_index_map with
    | none => simp [handle_device_event, hlook] at h
    | some j =>
      by_cases hc : containsIndex j st.device_map = true
      · simp only [handle_device_event, hlook, if_pos hc] at h
        injection h with h2
        injection h2 with hst hout
        subst hst
        exact hl
      · simp only [handle_device_event, hlook] at h
        rw [if_neg hc] at h
        exact absurd h (by simp)
  | notification addr =>
    simp only [handle_device_event] at h
    injection h with h2
    injection h2 with hst hout
    subst hst
    exact hl

theorem run_indexmap_mono :
    ∀ (es : List ButtplugDeviceEvent) (st st2 : DMState) (msgs : List ServerOutput),
      run_device st es = some (st2, msgs) →
      ∀ (a : String) (i : Nat), lookupAddr a st.device_index_map = some i →
        lookupAddr a st2.device_index_map = some i := by
  intro es
  induction es with
  | nil =>
    intro st st2 msgs h a i hl
    simp only [run_device] at h
    injection h with h2
    injection h2 with hst hout
    subst hst
    exact hl
  | cons e rest ih =>
    intro st st2 msgs h a i hl
    simp only [run_device] at h
    cases hstep : handle_device_event st e with
    | none => rw [hstep] at h; exact absurd h (by simp)
    | some r =>
      obtain ⟨st1, out1⟩ := r
      rw [hstep] at h
      have h3 : (match run_device st1 rest with
        | none => none
        | some (st2, out2) => some (st2, out1 ++ out2)) = some (st2, msgs) := h
      cases hrun : run_device st1 rest with
      | none => rw [hrun] at h3; exact absurd h3 (by simp)
      | some r2 =>
        obtain ⟨st11, out2⟩ := r2
        rw [hrun] at h3
        injection h3 with h2
        injection h2 with hst hout
        subst hst
        exact ih st1 st11 out2 hrun a i
          (hde_indexmap_mono st e st1 out1 hstep a i hl)

theorem hde_added_lookup :
    ∀ (st : DMState) (e : ButtplugDeviceEvent) (st2 : DMState)
      (out : List ServerOutput) (i : Nat) (a n : String),
      handle_device_event st e = some (st2, out) →
      ServerOutput.deviceAdded i a n ∈ out →
      lookupAddr a st2.device_index_map = some i := by
  intro st e st2 out i a n h hmem
  cases e with
  | connected d =>
    cases hlook : lookupAddr d.address st.device_index_map with
    | some id =>
      simp only [handle_device_event, hlook] at h
      injection h with h2
      injection h2 with hst hout
      subst hst
      rw [← hout] at hmem
      simp only [List.mem_singleton, ServerOutput.deviceAdded.injEq] at hmem
      obtain ⟨hi, ha, hn⟩ := hmem
      subst hi; subst ha
      exact hlook
    | none =>
      simp only [handle_device_event, hlook] at h
      injection h with h2
      injection h2 with hst hout
      subst hst
      rw [← hout] at hmem
      simp only [List.mem_singleton, ServerOutput.deviceAdded.injEq] at hmem
      obtain ⟨hi, ha, hn⟩ := hmem
      subst hi; subst ha
      show lookupAddr d.address ((d.address, st.device_index_generator) ::
        st.device_index_map) = some st.device_index_generator
      simp [lookupAddr]
  | removed addr =>
    cases hlook : lookupAddr addr st.device_index_map with
    | none => simp [handle_device_event, hlook] at h
    | some j =>
      by_cases hc : containsIndex j st.device_map = true
      · simp only [handle_device_event, hlook, if_pos hc] at h
        injection h with h2
        injection h2 with hst hout
        rw [← hout] at hmem
        exact absurd hmem (by simp)
      · simp only [handle_device_event, hlook] at h
        rw [if_neg hc] at h
        exact absurd h (by simp)
  | notification addr =>
    simp only [handle_device_event] at h
    injection h with h2
    injection h2 with hst hout
    rw [← hout] at hmem
    exact absurd hmem (by simp)

theorem run_added_lookup :
    ∀ (es : List ButtplugDeviceEvent) (st st2 : DMState) (msgs : List ServerOutput)
      (i : Nat) (a n : String),
      run_device st es = some (st2, msgs) →
      ServerOutput.deviceAdded i a n ∈ msgs →
      lookupAddr a st2.device_index_map = some i := by
  intro es
  induction es with
  | nil =>
    intro st st2 msgs i a n h hmem
    simp only [run_device] at h
    injection h with h2
    injection h2 with hst hout
    rw [← hout] at hmem
    exact absurd hmem (by simp)
  | cons e rest ih =>
    intro st st2 msgs i a n h hmem
    simp only [run_device] at h
    cases hstep : handle_device_event st e with
    | none => rw [hstep] at h; exact absurd h (by simp)
    | some r =>
      obtain ⟨st1, out1⟩ := r
      rw [hstep] at h
      have h3 : (match run_device st1 rest with
        | none => none
        | some (st2, out2) => some (st2, out1 ++ out2)) = some (st2, msgs) := h
      cases hrun : run_device st1 rest with
      | none => rw [hrun] at h3; exact absurd h3 (by simp)
      | some r2 =>
        obtain ⟨st11, out2⟩ := r2
        rw [hrun] at h3
        injection h3 with h2
        injection h2 with hst hout
        subst hst
        rw [← hout] at hmem
        rcases List.mem_append.mp hmem with hm | hm
        · exact run_indexmap_mono rest st1 st11 out2 hrun a i
            (hde_added_lookup st e st1 out1 i a n hstep hm)
        · exact ih st1 st11 out2 i a n hrun hm

/-- C2: across any sequence of device events, all DeviceAdded broadcasts for
one address carry the same index; a Connected event for an address already in
device_index_map broadcasts the stored index; a first Connected event records
the freshly generated index in device_index_map and broadcasts it; a Removed
event leaves device_index_map untouched (it deletes only from
device_map). -/
theorem deviceAdded_index_stable_per_address :
    ∀ (st : DMState) (es : List ButtplugDeviceEvent) (st2 : DMState)
      (msgs : List ServerOutput),
      run_device st es = some (st2, msgs) →
      (∀ (a : String) (i j : Nat) (n n2 : String),
         ServerOutput.deviceAdded i a n ∈ msgs →
         ServerOutput.deviceAdded j a n2 ∈ msgs → i = j) ∧
      (∀ (d : ButtplugDevice) (i : Nat) (st3 : DMState) (out : List ServerOutput),
         lookupAddr d.address st.device_index_map = some i →
         handle_device_event st (ButtplugDeviceEvent.connected d) = some (st3, out) →
         out = [ServerOutput.deviceAdded i d.address d.name]) ∧
      (∀ (d : ButtplugDevice) (st3 : DMState) (out : List ServerOutput),
         lookupAddr d.address st.device_index_map = none →
         handle_device_event st (ButtplugDeviceEvent.connected d) = some (st3, out) →
         lookupAddr d.address st3.device_index_map =
             some st.device_index_generator ∧
           out = [ServerOutput.deviceAdded st.device_index_generator
                    d.address d.name]) ∧
      (∀ (a : String) (st3 : DMState) (out : List ServerOutput),
         handle_device_event st (ButtplugDeviceEvent.removed a) = some (st3, out) →
         st3.device_index_map = st.device_index_map) := by
  intro st es st2 msgs hrun
  refine ⟨?_, ?_, ?_, ?_⟩
  · intro a i j n n2 hm1 hm2
    have h1 := run_added_lookup es st st2 msgs i a n hrun hm1
    have h2 := run_added_lookup es st st2 msgs j a n2 hrun hm2
    rw [h1] at h2
    injection h2
  · intro d i st3 out hlook h
    simp only [handle_device_event, hlook] at h
    injection h with h2
    injection h2 with hst hout
    exact hout.symm
  · intro d st3 out hlook h
    simp only [handle_device_event, hlook] at h
    injection h with h2
    injection h2 with hst hout
    subst hst
    refine ⟨?_, hout.symm⟩
    show lookupAddr d.address ((d.address, st.device_index_generator) ::
      st.device_index_map) = some st.device_index_generator
    simp [lookupAddr]
  · intro a st3 out h
    cases hlook : lookupAddr a st.device_index_map with
    | none => simp [handle_device_event, hlook] at h
    | some j =>
      by_cases hc : containsIndex j st.device_map = true
      · simp only [handle_device_event, hlook, if_pos hc] at h
        injection h with h2
        injection h2 with hst hout
        subst hst
        rfl
      · simp only [handle_device_event, hlook] at h
        rw [if_neg hc] at h
        exact absurd h (by simp)

/-- Witness for C2 on the spec's scenario 6: connect "A" (index 0),
disconnect, reconnect — both DeviceAdded broadcasts carry index 0. -/
theorem deviceAdded_index_stable_per_address_witness :
    run_device dmInitial esEx =
      some ({ dmInitial with
                device_index_generator := 2
                device_index_map := [("A", 0)]
                device_map := [(0, devA)] },
            [ServerOutput.deviceAdded 0 "A" "Desire",
             ServerOutput.deviceRemoved 0,
             ServerOutput.deviceAdded 0 "A" "Desire"]) ∧
    (0 : Nat) = 0 :=
  ⟨by decide,
   (deviceAdded_index_stable_per_address dmInitial esEx
       ({ dmInitial with
            device_index_generator := 2
            device_index_map := [("A", 0)]
            device_map := [(0, devA)] })
       [ServerOutput.deviceAdded 0 "A" "Desire",
        ServerOutput.deviceRemoved 0,
        ServerOutput.deviceAdded 0 "A" "Desire"] (by decide)).1
     "A" 0 0 "Desire" "Desire" (by decide) (by decide)⟩

theorem countConnected_cons :
    ∀ (e : ButtplugDeviceEvent) (rest : List ButtplugDeviceEvent),
      countConnected (e :: rest) = countConnected [e] + countConnected rest := by
  intro e rest
  cases e with
  | connected d => simp [countConnected]; omega
  | removed a => simp [countConnected]
  | notification a => simp [countConnected]

theorem mem_of_mem_getLast? :
    ∀ {l : List (String × Nat)} {x : String × Nat}, x ∈ l.getLast? → x ∈ l := by
  intro l x h
  obtain ⟨hne, hx⟩ := List.mem_getLast?_eq_getLast h
  subst hx
  exact List.getLast_mem hne

theorem hde_gen_map_cases :
    ∀ (st : DMState) (e : ButtplugDeviceEvent) (st2 : DMState)
      (out : List ServerOutput),
      handle_device_event st e = some (st2, out) →
      st2.device_index_generator = st.device_index_generator + countConnected [e] ∧
      (st2.device_index_map = st.device_index_map ∨
        (∃ a2 : String,
           st2.device_index_map =
             (a2, st.device_index_generator) :: st.device_index_map) ∧
          st2.device_index_generator = st.device_index_generator + 1) := by
  intro st e st2 out h
  cases e with
  | connected d =>
    cases hlook : lookupAddr d.address st.device_index_map with
    | some id =>
      simp only [handle_device_event, hlook] at h
      injection h with h2
      injection h2 with hst hout
      subst hst
      exact ⟨by simp [countConnected], Or.inl rfl⟩
    | none =>
      simp only [handle_device_event, hlook] at h
      injection h with h2
      injection h2 with hst hout
      subst hst
      exact ⟨by simp [countConnected], Or.inr ⟨⟨d.address, rfl⟩, rfl⟩⟩
  | removed addr =>
    cases hlook : lookupAddr addr st.device_index_map with
    | none => simp [handle_device_event, hlook] at h
    | some j =>
      by_cases hc : containsIndex j st.device_map = true
      · simp only [handle_device_event, hlook, if_pos hc] at h
        injection h with h2
        injection h2 with hst hout
        subst hst
        exact ⟨by simp [countConnected], Or.inl rfl⟩
      · simp only [handle_device_event, hlook] at h
        rw [if_neg hc] at h
        exact absurd h (by simp)
  | notification addr =>
    simp only [handle_device_event] at h
    injection h with h2
    injection h2 with hst hout
    subst hst
    exact ⟨by simp [countConnected], Or.inl rfl⟩

theorem run_gen_map :
    ∀ (es : List ButtplugDeviceEvent) (st st2 : DMState) (msgs : List ServerOutput),
      run_device st es = some (st2, msgs) →
      st2.device_index_generator = st.device_index_generator + countConnected es ∧
      ∃ fresh : List (String × Nat),
        st2.device_index_map = fresh ++ st.device_index_map ∧
        List.Chain' (fun p q : String × Nat => q.2 < p.2) fresh ∧
        ∀ p ∈ fresh, st.device_index_generator ≤ p.2 ∧
          p.2 < st2.device_index_generator := by
  intro es
  induction es with
  | nil =>
    intro st st2 msgs h
    simp only [run_device] at h
    injection h with h2
    injection h2 with hst hout
    subst hst
    refine ⟨by simp [countConnected], [], (List.nil_append _).symm,
      List.chain'_nil, ?_⟩
    intro p hp
    exact absurd hp (by simp)
  | cons e rest ih =>
    intro st st2 msgs h
    simp only [run_device] at h
    cases hstep : handle_device_event st e with
    | none => rw [hstep] at h; exact absurd h (by simp)
    | some r =>
      obtain ⟨st1, out1⟩ := r
      rw [hstep] at h
      have h3 : (match run_device st1 rest with
        | none => none
        | some (sA, oA) => some (sA, out1 ++ oA)) = some (st2, msgs) := h
      cases hrun : run_device st1 rest with
      | none => rw [hrun] at h3; exact absurd h3 (by simp)
      | some r2 =>
        obtain ⟨st11, out2⟩ := r2
        rw [hrun] at h3
        injection h3 with h2
        injection h2 with hst hout
        subst hst
        obtain ⟨hgen1, hmap1⟩ := hde_gen_map_cases st e st1 out1 hstep
        obtain ⟨hgen2, fresh1, hmapeq, hchain, hbound⟩ := ih st1 st11 out2 hrun
        constructor
        · rw [countConnected_cons e rest]
          omega
        · rcases hmap1 with hmap1 | ⟨⟨a2, hmap1⟩, hgen1s⟩
          · refine ⟨fresh1, by rw [hmapeq, hmap1], hchain, ?_⟩
            intro p hp
            have hb := hbound p hp
            omega
          · refine ⟨fresh1 ++ [(a2, st.device_index_generator)], ?_, ?_, ?_⟩
            · rw [hmapeq, hmap1, List.append_cons]
            · rw [List.chain'_append]
              refine ⟨hchain, List.chain'_singleton _, ?_⟩
              intro x hx y hy
              simp only [List.head?_cons] at hy
              rw [Option.mem_some_iff] at hy
              subst hy
              have hxb := hbound x (mem_of_mem_getLast? hx)
              show st.device_index_generator < x.2
              omega
            · intro p hp
              rcases List.mem_append.mp hp with hp | hp
              · have hb := hbound p hp
                omega
              · have hp2 : p = (a2, st.device_index_generator) := by simpa using hp
                subst hp2
                refine ⟨Nat.le_refl _, ?_⟩
                show st.device_index_generator < st11.device_index_generator
                omega

/-- C10: every Connected event increments device_index_generator by exactly
one, including when the address already has a stored index that is reused;
hence after any event sequence the generator has advanced by the number of
Connected events, and the freshly recorded address-to-index entries (the new
prefix of device_index_map) carry pairwise distinct indices that strictly
increase in order of first connection (the prefix is reverse-sorted because
new entries are prepended) and lie in the generator's traversed range — not
necessarily contiguously, since reconnects burn generator values. -/
theorem connected_increments_generator :
    ∀ (st : DMState) (es : List ButtplugDeviceEvent) (st2 : DMState)
      (msgs : List ServerOutput),
      run_device st es = some (st2, msgs) →
      st2.device_index_generator = st.device_index_generator + countConnected es ∧
      (∀ (d : ButtplugDevice) (i : Nat) (st3 : DMState) (out : List ServerOutput),
         lookupAddr d.address st.device_index_map = some i →
         handle_device_event st (ButtplugDeviceEvent.connected d) = some (st3, out) →
         st3.device_index_generator = st.device_index_generator + 1) ∧
      ∃ fresh : List (String × Nat),
        st2.device_index_map = fresh ++ st.device_index_map ∧
        List.Chain' (fun p q : String × Nat => q.2 < p.2) fresh ∧
        ∀ p ∈ fresh, st.device_index_generator ≤ p.2 ∧
          p.2 < st2.device_index_generator := by
  intro st es st2 msgs h
  obtain ⟨hgen, hfresh⟩ := run_gen_map es st st2 msgs h
  refine ⟨hgen, ?_, hfresh⟩
  intro d i st3 out hlook hstep
  simp only [handle_device_event, hlook] at hstep
  injection hstep with h2
  injection h2 with hst hout
  subst hst
  rfl

/-- Witness for C10: connect "A", reconnect "A" (index 0 reused, generator
still advances), then connect "B" — the generator reaches 3 and "B" receives
the non-contiguous index 2. -/
theorem connected_increments_generator_witness :
    run_device dmInitial esEx2 =
      some ({ dmInitial with
                device_index_generator := 3
                device_index_map := [("B", 2), ("A", 0)]
                device_map := [(2, devB), (0, devA)] },
            [ServerOutput.deviceAdded 0 "A" "Desire",
             ServerOutput.deviceAdded 0 "A" "Desire",
             ServerOutput.deviceAdded 2 "B" "Max"]) ∧
    ({ dmInitial with
         device_index_generator := 3
         device_index_map := [("B", 2), ("A", 0)]
         device_map := [(2, devB), (0, devA)] } :
       DMState).device_index_generator =
      dmInitial.device_index_generator + countConnected esEx2 :=
  ⟨by decide,
   (connected_increments_generator dmInitial esEx2
       ({ dmInitial with
            device_index_generator := 3
            device_index_map := [("B", 2), ("A", 0)]
            device_map := [(2, devB), (0, devA)] })
       [ServerOutput.deviceAdded 0 "A" "Desire",
        ServerOutput.deviceAdded 0 "A" "Desire",
        ServerOutput.deviceAdded 2 "B" "Max"] (by decide)).1⟩

end Buttplug
